import Mathlib

/-!
Verification of the core logic of `tgnoti.py`, a command-line Telegram
notifier.  The Python source is shallowly embedded: Python dicts become
insertion-ordered association lists, the HTTP transport becomes an explicit
outcome/oracle parameter, and the mutable `TGNotifier` object becomes an
explicit state record threaded through each operation.
-/

namespace TGNoti

/-- A chat object as it appears inside an inbound Telegram message
(`msg['chat']` in the source): an integer id and optional name fields. -/
structure Chat where
  id : Int
  first_name : Option String
  last_name : Option String
  username : Option String

/-- An inbound message (`upd['message']`); only the `chat` field is read by
the registry-extraction code. -/
structure Message where
  chat : Chat

/-- One element of the `result` array of a `getUpdates` response. -/
structure Update where
  update_id : Int
  message : Message

/-- Python `d[k]` lookup on an insertion-ordered association list modelling a
Python dict: the first entry with the key (a dict never holds a key twice,
so first and last agree on dicts the program builds). -/
def dictLookup : List (Int × String) → Int → Option String
  | [], _ => none
  | p :: rest, k => if p.1 = k then some p.2 else dictLookup rest k

/-- Python `d[k] = v` on the association-list model of a dict: if the key is
present its value is replaced in place (insertion order kept), otherwise the
pair is appended at the end, as in Python 3.7+ dicts. -/
def dictInsert (d : List (Int × String)) (k : Int) (v : String) : List (Int × String) :=
  if d.any (fun p => p.1 == k) then
    d.map (fun p => if p.1 = k then (p.1, v) else p)
  else
    d ++ [(k, v)]

/-- Python `d.update(new)` (the overwrite-union used by `add_recent_chats`,
line 174 of the source): insert every pair of `new` in order. -/
def dictUpdate (d new : List (Int × String)) : List (Int × String) :=
  new.foldl (fun acc p => dictInsert acc p.1 p.2) d

/-- The value attached to the LAST occurrence of a key in an association
list; used to state which observation wins after a sequence of inserts. -/
def dictLastLookup : List (Int × String) → Int → Option String
  | [], _ => none
  | p :: rest, k =>
    match dictLastLookup rest k with
    | some v => some v
    | none => if p.1 = k then some p.2 else none

/-- The filesystem facts `get_config_file_path` consults: the path of
`config.json` next to the script, the xdg-derived path (`none` when the
`xdg` module is not importable), and the `os.path.isfile` predicate. -/
structure ConfigEnv where
  scriptConfigPath : String
  xdgConfigPath : Option String
  isFile : String → Bool

/-- Embedding of `get_config_file_path` (source lines 12-65).  The second
component of the result records whether the two-configs warning was logged.
The `getD` in the third branch is unreachable: that branch is guarded by
`is_config_at_xdg`, which forces `config_at_xdg_path` to be `some`. -/
def get_config_file_path (config_file_path : Option String) (env : ConfigEnv) :
    String × Bool :=
  match config_file_path with
  | some p => (p, false)
  | none =>
    let is_config_at_script := env.isFile env.scriptConfigPath
    let config_at_xdg_path := env.xdgConfigPath
    let is_config_at_xdg :=
      match config_at_xdg_path with
      | some p => env.isFile p
      | none => false
    if is_config_at_xdg && is_config_at_script then
      (env.scriptConfigPath, true)
    else if is_config_at_script then
      (env.scriptConfigPath, false)
    else if is_config_at_xdg then
      (config_at_xdg_path.getD env.scriptConfigPath, false)
    else
      match config_at_xdg_path with
      | some p => (p, false)
      | none => (env.scriptConfigPath, false)

/-- What the HTTP layer did for one request: the `requests` call raised
(connection error, DNS failure, timeout, ...) or produced a response with
the given status code. -/
inductive HttpOutcome where
  | exn
  | response (status : Nat)

/-- Embedding of `checked_get_request` (source lines 67-78): any exception
becomes the connectivity error, a non-200 status becomes an error carrying
the status code, a 200 response is returned. -/
def checked_get_request : HttpOutcome → Except String Unit
  | HttpOutcome.exn => Except.error "Request failed critically (no internet?)"
  | HttpOutcome.response s =>
    if s ≠ 200 then
      Except.error ("Request failed with status code " ++ toString s)
    else
      Except.ok ()

/-- Embedding of `TGNotifier.post` (source lines 123-135): like the GET
path, but a 400 status appends the " (illformed message?)" hint. -/
def post : HttpOutcome → Except String Unit
  | HttpOutcome.exn => Except.error "Request failed critically (no internet?)"
  | HttpOutcome.response s =>
    if s ≠ 200 then
      Except.error ("Request failed with status code " ++ toString s ++
        (if s = 400 then " (illformed message?)" else ""))
    else
      Except.ok ()

/-- Whether a status code is in the 2xx success class (spec-side notion,
used to compare the spec wording against the code, which tests `!= 200`). -/
def is2xx (s : Nat) : Bool := 200 ≤ s && s < 300

/-- The mutable state of a `TGNotifier` instance (source lines 85-91). -/
structure TGNotifier where
  api_key : String
  config_file_path : String
  last_update_id : Int
  registered_chats : List (Int × String)

/-- The payload dict that `send_msg` posts to the `sendMessage` method
(source lines 138-143). -/
structure SendPayload where
  chat_id : Int
  text : String
  parse_mode : String
  disable_notification : Bool

/-- Payload construction in `send_msg` (source lines 138-143): note that the
`disable_notification` field is set to the `notify` argument itself. -/
def send_msg_payload (chat_id : Int) (msg : String) (notify : Bool) : SendPayload :=
  { chat_id := chat_id
    text := msg
    parse_mode := "markdown"
    disable_notification := notify }

/-- The `notify` argument `main` passes to `broadcast` (source line 336):
`notify=(not args.mute)`. -/
def main_notify_arg (mute : Bool) : Bool := !mute

/-- Embedding of `send_msg` (source lines 137-144).  `net` is the network
oracle giving the HTTP outcome of the `sendMessage` POST for a payload; the
notifier state is returned unchanged because the method assigns no field. -/
def send_msg (tgn : TGNotifier) (net : SendPayload → HttpOutcome)
    (chat_id : Int) (msg : String) (notify : Bool) :
    Except String Unit × TGNotifier :=
  (post (net (send_msg_payload chat_id msg notify)), tgn)

/-- Embedding of `send_host_msg` (source lines 146-149): the message is
extended with the markup-formatted hostname tag and passed to `send_msg`. -/
def send_host_msg (tgn : TGNotifier) (net : SendPayload → HttpOutcome)
    (chat_id : Int) (msg : String) (notify : Bool) (hostname : String) :
    Except String Unit × TGNotifier :=
  send_msg tgn net chat_id (msg ++ "\n_from_ `" ++ hostname ++ "`") notify

/-- The text actually posted for one recipient, as a function of the
`with_host` flag (spec-side abbreviation of the two send paths). -/
def sentText (msg : String) (with_host : Bool) (hostname : String) : String :=
  if with_host then msg ++ "\n_from_ `" ++ hostname ++ "`" else msg

/-- Everything `broadcast` produces: the two counters it accumulates (the
Python function logs both and returns `num_failure`), the chat ids it
attempted in order, and the notifier state after the loop. -/
structure BroadcastResult where
  numSuccess : Nat
  numFailure : Nat
  attempted : List Int
  finalState : TGNotifier

/-- The per-recipient loop of `broadcast` (source lines 154-165): each entry
is attempted; a `TGException` from the send path is counted as a failure and
the loop continues; anything else counts as a success. -/
def broadcastLoop (net : SendPayload → HttpOutcome) (msg : String)
    (with_host notify : Bool) (hostname : String) :
    TGNotifier → List (Int × String) → BroadcastResult
  | tgn, [] => ⟨0, 0, [], tgn⟩
  | tgn, (chat_id, _name) :: rest =>
    let res :=
      if with_host then send_host_msg tgn net chat_id msg notify hostname
      else send_msg tgn net chat_id msg notify
    let r := broadcastLoop net msg with_host notify hostname res.2 rest
    match res.1 with
    | Except.ok _ => ⟨r.numSuccess + 1, r.numFailure, chat_id :: r.attempted, r.finalState⟩
    | Except.error _ => ⟨r.numSuccess, r.numFailure + 1, chat_id :: r.attempted, r.finalState⟩

/-- Embedding of `broadcast` (source lines 151-170): run the loop over the
registered chats.  The Python function returns `num_failure`. -/
def broadcast (tgn : TGNotifier) (msg : String) (with_host notify : Bool)
    (hostname : String) (net : SendPayload → HttpOutcome) : BroadcastResult :=
  broadcastLoop net msg with_host notify hostname tgn tgn.registered_chats

/-- The payload of a `getUpdates` GET request (source lines 178-183). -/
structure GetUpdatesPayload where
  offset : Int
  limit : Nat
  timeout : Nat
  allowed_updates : List String

/-- Everything `get_updates` does: the GET requests it issues in order, the
batch it returns to the caller, and the notifier state afterwards. -/
structure GetUpdatesResult where
  requests : List GetUpdatesPayload
  messages : List Update
  finalState : TGNotifier

/-- Embedding of `get_updates` (source lines 177-198).  The transport is
modelled by handing the function the batch `results` that the first
`getUpdates` request returns; the response of the second request is
discarded by the source code, so it does not appear.  Note the source
hardcodes `allowed_updates` to `['message']` in the payload, ignoring the
parameter of the same name. -/
def get_updates (tgn : TGNotifier) (limit timeout : Nat)
    (allowed_updates : List String) (results : List Update) : GetUpdatesResult :=
  let payload : GetUpdatesPayload :=
    { offset := tgn.last_update_id + 1
      limit := limit
      timeout := timeout
      allowed_updates := ["message"] }
  let new_last_update_id :=
    results.foldl (fun acc upd => max acc upd.update_id) tgn.last_update_id
  let payload2 : GetUpdatesPayload := { payload with offset := new_last_update_id + 1 }
  { requests := [payload, payload2]
    messages := results
    finalState := { tgn with last_update_id := new_last_update_id } }

/-- The display name built for a chat (source lines 230-234), with the
literal placeholders for absent fields. -/
def chatName (chat : Chat) : String :=
  (chat.first_name.getD "<no first name>") ++ " " ++
  (chat.last_name.getD "<no last name>") ++ " (@" ++
  (chat.username.getD "<no username>") ++ ")"

/-- The extraction loop of `get_recent_chats` (source lines 224-237): build
a dict from chat id to display name over the pulled batch; a later message
from the same chat overwrites the entry. -/
def get_recent_chats (updates : List Update) : List (Int × String) :=
  updates.foldl
    (fun recent_chats upd =>
      dictInsert recent_chats upd.message.chat.id (chatName upd.message.chat))
    []

/-- Embedding of `add_recent_chats` (source lines 172-175): pull a batch
(`get_recent_chats` calls `get_updates` with its defaults), extract the
chats, merge them into `registered_chats` via `dict.update`, and return the
new chats next to the mutated notifier. -/
def add_recent_chats (tgn : TGNotifier) (results : List Update) :
    TGNotifier × List (Int × String) :=
  let pulled := get_updates tgn 100 0 ["message"] results
  let new_chats := get_recent_chats pulled.messages
  ({ pulled.finalState with
      registered_chats := dictUpdate pulled.finalState.registered_chats new_chats },
    new_chats)

/-- The display name carried by the LAST message of the batch whose chat id
is `k` (spec-side: the "later message wins" name). -/
def latestName : List Update → Int → Option String
  | [], _ => none
  | upd :: rest, k =>
    match latestName rest k with
    | some n => some n
    | none =>
      if upd.message.chat.id = k then some (chatName upd.message.chat) else none

/-- One entry of the `photo` array of a message (source lines 206-210). -/
structure PhotoSize where
  width : Int
  height : Int
  file_id : String

/-- The loop state of the photo-size selection in `download_photo_from_msg`
(source lines 203-205): the running `height`, `width` and `file_id`. -/
structure PhotoSel where
  height : Int
  width : Int
  file_id : Option String

/-- One iteration of the selection loop (source lines 206-210): the running
choice is replaced only on a STRICTLY greater width. -/
def photoSelStep (acc : PhotoSel) (ps : PhotoSize) : PhotoSel :=
  if ps.width > acc.width then
    { height := ps.height, width := ps.width, file_id := some ps.file_id }
  else acc

/-- The `file_id` that `download_photo_from_msg` passes to `getFile`: the
result of folding the selection loop from the initial `-1 / -1 / None`
state (source lines 203-212). -/
def download_photo_file_id (photo_sizes : List PhotoSize) : Option String :=
  (photo_sizes.foldl photoSelStep
    { height := -1, width := -1, file_id := none }).file_id

/-- Spec-comparison definition, following the wording of the amended claim:
the FIRST photo size attaining the maximal width of the list. -/
def firstMaxWidth : List PhotoSize → Option PhotoSize
  | [] => none
  | ps :: rest =>
    match firstMaxWidth rest with
    | none => some ps
    | some q => if q.width > ps.width then some q else some ps

/-- Concrete notifier used to instantiate universally quantified theorems. -/
def tgn0 : TGNotifier :=
  { api_key := "k"
    config_file_path := "cfg"
    last_update_id := 0
    registered_chats := [] }

/-- Concrete update with id 5, used to instantiate cursor theorems. -/
def upd5 : Update :=
  { update_id := 5
    message :=
      { chat :=
          { id := 7
            first_name := some "A"
            last_name := none
            username := none } } }

/-- Concrete filesystem where both candidate config files exist. -/
def env0 : ConfigEnv :=
  { scriptConfigPath := "/opt/tgnotipy/config.json"
    xdgConfigPath := some "/home/u/.config/tgnotipy/config.json"
    isFile := fun _ => true }

/-- A list with no entry for key `k` looks up to `none`. -/
theorem dictLookup_eq_none {d : List (Int × String)} {k : Int}
    (h : d.any (fun p => p.1 == k) = false) : dictLookup d k = none := by
  induction d with
  | nil => rfl
  | cons p rest ih =>
    simp only [List.any_cons, Bool.or_eq_false_iff] at h
    have hne : p.1 ≠ k := by simpa using h.1
    simp [dictLookup, hne, ih h.2]

/-- Lookup distributes over list append, first list first. -/
theorem dictLookup_append (d e : List (Int × String)) (k : Int) :
    dictLookup (d ++ e) k =
      match dictLookup d k with
      | some v => some v
      | none => dictLookup e k := by
  induction d with
  | nil => rfl
  | cons p rest ih =>
    by_cases h : p.1 = k
    · simp [dictLookup, h]
    · simp [dictLookup, h, ih]

/-- Replacing the value at key `k` everywhere makes `k` look up to the new
value, provided some entry with key `k` exists. -/
theorem dictLookup_map_replace {d : List (Int × String)} {k : Int} (v : String)
    (h : d.any (fun p => p.1 == k) = true) :
    dictLookup (d.map (fun p => if p.1 = k then (p.1, v) else p)) k = some v := by
  induction d with
  | nil => simp at h
  | cons p rest ih =>
    by_cases hp : p.1 = k
    · simp [dictLookup, hp]
    · have h' : rest.any (fun p => p.1 == k) = true := by
        simp only [List.any_cons] at h
        simpa [hp] using h
      simp [dictLookup, hp, ih h']

/-- Replacing the value at key `k` leaves lookups of other keys unchanged. -/
theorem dictLookup_map_replace_ne {d : List (Int × String)} {k k' : Int} (v : String)
    (hne : k' ≠ k) :
    dictLookup (d.map (fun p => if p.1 = k then (p.1, v) else p)) k' =
      dictLookup d k' := by
  induction d with
  | nil => rfl
  | cons p rest ih =>
    have hne' : ¬(k = k') := fun hh => hne hh.symm
    by_cases hp : p.1 = k
    · simp [dictLookup, hp, hne', ih]
    · by_cases hk : p.1 = k'
      · simp [dictLookup, hp, hk, hne]
      · simp [dictLookup, hp, hk, ih]

/-- Characterization of lookup after a Python dict assignment. -/
theorem dictLookup_dictInsert (d : List (Int × String)) (k : Int) (v : String)
    (k' : Int) :
    dictLookup (dictInsert d k v) k' =
      if k' = k then some v else dictLookup d k' := by
  unfold dictInsert
  cases h : d.any (fun p => p.1 == k) with
  | true =>
    by_cases hk : k' = k
    · subst hk; simp [dictLookup_map_replace v h]
    · simp [dictLookup_map_replace_ne v hk, hk]
  | false =>
    by_cases hk : k' = k
    · subst hk
      simp [dictLookup_append, dictLookup_eq_none h, dictLookup]
    · have hne : k ≠ k' := fun hh => hk hh.symm
      rw [if_neg hk]
      simp only [Bool.false_eq_true, if_false, dictLookup_append]
      cases hl : dictLookup d k' with
      | some w => simp
      | none => simp [dictLookup, hne]

/-- A list with no entry for key `k` has no last entry for it either. -/
theorem dictLastLookup_eq_none {d : List (Int × String)} {k : Int}
    (h : d.any (fun p => p.1 == k) = false) : dictLastLookup d k = none := by
  induction d with
  | nil => rfl
  | cons p rest ih =>
    simp only [List.any_cons, Bool.or_eq_false_iff] at h
    have hne : p.1 ≠ k := by simpa using h.1
    simp [dictLastLookup, hne, ih h.2]

/-- Last-occurrence lookup distributes over append, second list first. -/
theorem dictLastLookup_append (d e : List (Int × String)) (k : Int) :
    dictLastLookup (d ++ e) k =
      match dictLastLookup e k with
      | some v => some v
      | none => dictLastLookup d k := by
  induction d with
  | nil => cases h : dictLastLookup e k <;> simp [dictLastLookup, h]
  | cons p rest ih =>
    have lhs : dictLastLookup ((p :: rest) ++ e) k =
        match dictLastLookup (rest ++ e) k with
        | some v => some v
        | none => if p.1 = k then some p.2 else none := rfl
    rw [lhs, ih]
    cases he : dictLastLookup e k <;> cases hr : dictLastLookup rest k <;>
      simp [dictLastLookup, he, hr]

/-- The value-replacing map preserves which keys occur. -/
theorem any_key_map (d : List (Int × String)) (k : Int) (v : String) (k' : Int) :
    (d.map (fun p => if p.1 = k then (p.1, v) else p)).any (fun p => p.1 == k') =
      d.any (fun p => p.1 == k') := by
  induction d with
  | nil => rfl
  | cons p rest ih =>
    by_cases hp : p.1 = k <;> simp [hp, ih]

/-- Replacing the value at key `k` everywhere makes the last `k`-entry carry
the new value, provided some entry with key `k` exists. -/
theorem dictLastLookup_map_replace {d : List (Int × String)} {k : Int} (v : String)
    (h : d.any (fun p => p.1 == k) = true) :
    dictLastLookup (d.map (fun p => if p.1 = k then (p.1, v) else p)) k = some v := by
  induction d with
  | nil => simp at h
  | cons p rest ih =>
    cases h' : rest.any (fun p => p.1 == k) with
    | true => simp [dictLastLookup, ih h']
    | false =>
      have hp : p.1 = k := by
        simp only [List.any_cons, h', Bool.or_false] at h
        simpa using h
      have hnone :
          dictLastLookup (rest.map (fun p => if p.1 = k then (p.1, v) else p)) k =
            none :=
        dictLastLookup_eq_none (by rw [any_key_map]; exact h')
      simp [dictLastLookup, hnone, hp]

/-- Replacing the value at key `k` leaves last-lookups of other keys alone. -/
theorem dictLastLookup_map_replace_ne {d : List (Int × String)} {k k' : Int}
    (v : String) (hne : k' ≠ k) :
    dictLastLookup (d.map (fun p => if p.1 = k then (p.1, v) else p)) k' =
      dictLastLookup d k' := by
  induction d with
  | nil => rfl
  | cons p rest ih =>
    have hne' : ¬(k = k') := fun hh => hne hh.symm
    by_cases hp : p.1 = k
    · simp [dictLastLookup, hp, hne', ih]
    · simp [dictLastLookup, hp, ih]

/-- Characterization of last-occurrence lookup after a dict assignment. -/
theorem dictLastLookup_dictInsert (d : List (Int × String)) (k : Int) (v : String)
    (k' : Int) :
    dictLastLookup (dictInsert d k v) k' =
      if k' = k then some v else dictLastLookup d k' := by
  unfold dictInsert
  cases h : d.any (fun p => p.1 == k) with
  | true =>
    by_cases hk : k' = k
    · subst hk; simp [dictLastLookup_map_replace v h]
    · simp [dictLastLookup_map_replace_ne v hk, hk]
  | false =>
    simp only [Bool.false_eq_true, if_false, dictLastLookup_append]
    by_cases hk : k' = k
    · subst hk; simp [dictLastLookup, dictLastLookup_eq_none h]
    · have hne : k ≠ k' := fun hh => hk hh.symm
      simp [dictLastLookup, hne, hk]

/-- Lookup after `dict.update`: a key present in `new` (its last occurrence
wins) hides the old binding, anything else falls through to `d`. -/
theorem dictLookup_dictUpdate (d new : List (Int × String)) (k : Int) :
    dictLookup (dictUpdate d new) k =
      match dictLastLookup new k with
      | some v => some v
      | none => dictLookup d k := by
  induction new generalizing d with
  | nil => rfl
  | cons p rest ih =>
    have step : dictUpdate d (p :: rest) = dictUpdate (dictInsert d p.1 p.2) rest := rfl
    have hhead : dictLastLookup (p :: rest) k =
        match dictLastLookup rest k with
        | some v => some v
        | none => if p.1 = k then some p.2 else none := rfl
    rw [step, ih, dictLookup_dictInsert, hhead]
    cases hr : dictLastLookup rest k with
    | some v => simp
    | none =>
      by_cases hk : p.1 = k
      · simp [hk]
      · have hne : ¬(k = p.1) := fun hh => hk hh.symm
        simp [hk, hne]

/-- Folding the extraction loop from any accumulator: the last entry for a
key is the latest matching message, falling back to the accumulator. -/
theorem dictLastLookup_extract (updates : List Update) (d : List (Int × String))
    (k : Int) :
    dictLastLookup
      (updates.foldl
        (fun acc upd => dictInsert acc upd.message.chat.id (chatName upd.message.chat))
        d) k =
      match latestName updates k with
      | some n => some n
      | none => dictLastLookup d k := by
  induction updates generalizing d with
  | nil => rfl
  | cons upd rest ih =>
    have hhead : latestName (upd :: rest) k =
        match latestName rest k with
        | some n => some n
        | none =>
          if upd.message.chat.id = k then some (chatName upd.message.chat)
          else none := rfl
    rw [List.foldl_cons, ih, dictLastLookup_dictInsert, hhead]
    cases hr : latestName rest k with
    | some n => simp
    | none =>
      by_cases hk : upd.message.chat.id = k
      · simp [hk]
      · have hne : ¬(k = upd.message.chat.id) := fun hh => hk hh.symm
        simp [hk, hne]

/-- The extracted dict of a batch binds each chat id to the display name of
the LAST message of the batch carrying that id. -/
theorem dictLastLookup_get_recent_chats (updates : List Update) (k : Int) :
    dictLastLookup (get_recent_chats updates) k = latestName updates k := by
  unfold get_recent_chats
  rw [dictLastLookup_extract]
  cases latestName updates k <;> simp [dictLastLookup]

/-- The broadcast loop, over any chat list and any starting state: it
attempts every entry in order, counts a failure exactly when the POST for
that entry fails, success and failure counts partition the list, and the
notifier state is untouched. -/
theorem broadcastLoop_spec (net : SendPayload → HttpOutcome) (msg : String)
    (with_host notify : Bool) (hostname : String) (tgn : TGNotifier)
    (chats : List (Int × String)) :
    (broadcastLoop net msg with_host notify hostname tgn chats).attempted =
        chats.map Prod.fst ∧
    (broadcastLoop net msg with_host notify hostname tgn chats).numFailure =
        chats.countP (fun p =>
          !(post (net (send_msg_payload p.1 (sentText msg with_host hostname)
            notify))).isOk) ∧
    (broadcastLoop net msg with_host notify hostname tgn chats).numSuccess +
        (broadcastLoop net msg with_host notify hostname tgn chats).numFailure =
        chats.length ∧
    (broadcastLoop net msg with_host notify hostname tgn chats).finalState = tgn := by
  induction chats generalizing tgn with
  | nil => exact ⟨rfl, rfl, rfl, rfl⟩
  | cons hd rest ih =>
    obtain ⟨cid, name⟩ := hd
    have hunf : broadcastLoop net msg with_host notify hostname tgn ((cid, name) :: rest) =
        match post (net (send_msg_payload cid (sentText msg with_host hostname) notify)) with
        | Except.ok _ =>
          { numSuccess := (broadcastLoop net msg with_host notify hostname tgn rest).numSuccess + 1
            numFailure := (broadcastLoop net msg with_host notify hostname tgn rest).numFailure
            attempted := cid :: (broadcastLoop net msg with_host notify hostname tgn rest).attempted
            finalState := (broadcastLoop net msg with_host notify hostname tgn rest).finalState }
        | Except.error _ =>
          { numSuccess := (broadcastLoop net msg with_host notify hostname tgn rest).numSuccess
            numFailure := (broadcastLoop net msg with_host notify hostname tgn rest).numFailure + 1
            attempted := cid :: (broadcastLoop net msg with_host notify hostname tgn rest).attempted
            finalState := (broadcastLoop net msg with_host notify hostname tgn rest).finalState } := by
      cases with_host <;> rfl
    obtain ⟨h1, h2, h3, h4⟩ := ih tgn
    rw [hunf]
    cases hpost : post (net (send_msg_payload cid (sentText msg with_host hostname) notify)) with
    | ok u =>
      refine ⟨?_, ?_, ?_, ?_⟩
      · show cid :: (broadcastLoop net msg with_host notify hostname tgn rest).attempted =
            ((cid, name) :: rest).map Prod.fst
        rw [List.map_cons, h1]
      · show (broadcastLoop net msg with_host notify hostname tgn rest).numFailure =
            List.countP (fun p =>
              !(post (net (send_msg_payload p.1 (sentText msg with_host hostname)
                notify))).isOk) ((cid, name) :: rest)
        rw [List.countP_cons, h2]
        simp [hpost, Except.isOk, Except.toBool]
      · show (broadcastLoop net msg with_host notify hostname tgn rest).numSuccess + 1 +
            (broadcastLoop net msg with_host notify hostname tgn rest).numFailure =
            rest.length + 1
        omega
      · exact h4
    | error e =>
      refine ⟨?_, ?_, ?_, ?_⟩
      · show cid :: (broadcastLoop net msg with_host notify hostname tgn rest).attempted =
            ((cid, name) :: rest).map Prod.fst
        rw [List.map_cons, h1]
      · show (broadcastLoop net msg with_host notify hostname tgn rest).numFailure + 1 =
            List.countP (fun p =>
              !(post (net (send_msg_payload p.1 (sentText msg with_host hostname)
                notify))).isOk) ((cid, name) :: rest)
        rw [List.countP_cons, h2]
        simp [hpost, Except.isOk, Except.toBool]
      · show (broadcastLoop net msg with_host notify hostname tgn rest).numSuccess +
            ((broadcastLoop net msg with_host notify hostname tgn rest).numFailure + 1) =
            rest.length + 1
        omega
      · exact h4

/-- The running maximum never goes below its starting value. -/
theorem le_foldl_max (results : List Update) (c : Int) :
    c ≤ results.foldl (fun acc upd => max acc upd.update_id) c := by
  induction results generalizing c with
  | nil => exact le_refl c
  | cons u rest ih =>
    exact le_trans (le_max_left c u.update_id) (ih (max c u.update_id))

/-- The running maximum stays below any common upper bound. -/
theorem foldl_max_le (results : List Update) (K : Int) :
    (∀ u ∈ results, u.update_id ≤ K) →
    ∀ c, c ≤ K → results.foldl (fun acc upd => max acc upd.update_id) c ≤ K := by
  induction results with
  | nil => exact fun _ c hc => hc
  | cons u rest ih =>
    intro h c hc
    exact ih (fun w hw => h w (List.mem_cons_of_mem u hw)) (max c u.update_id)
      (max_le hc (h u (List.mem_cons_self u rest)))

/-- Every element of the batch is below the running maximum. -/
theorem mem_le_foldl_max (results : List Update) (c : Int) (u : Update) :
    u ∈ results → u.update_id ≤ results.foldl (fun acc upd => max acc upd.update_id) c := by
  induction results generalizing c with
  | nil => intro h; cases h
  | cons v rest ih =>
    intro h
    cases h with
    | head =>
      exact le_trans (le_max_right c u.update_id) (le_foldl_max rest (max c u.update_id))
    | tail _ hmem => exact ih (max c v.update_id) hmem

/-- The selection loop, from any starting state: it lands on the first size
attaining the maximal width, when that width beats the starting state. -/
theorem photoLoop_spec (photo_sizes : List PhotoSize) (acc : PhotoSel) :
    photo_sizes.foldl photoSelStep acc =
      match firstMaxWidth photo_sizes with
      | none => acc
      | some q =>
        if q.width > acc.width then
          { height := q.height, width := q.width, file_id := some q.file_id }
        else acc := by
  induction photo_sizes generalizing acc with
  | nil => rfl
  | cons ps rest ih =>
    have hhead : firstMaxWidth (ps :: rest) =
        match firstMaxWidth rest with
        | none => some ps
        | some q => if q.width > ps.width then some q else some ps := rfl
    rw [List.foldl_cons, ih, hhead]
    cases hr : firstMaxWidth rest with
    | none => rfl
    | some q =>
      by_cases hq : q.width > ps.width
      · by_cases hp : ps.width > acc.width
        · have hqa : q.width > acc.width := lt_trans hp hq
          simp [photoSelStep, hp, hq, hqa]
        · simp [photoSelStep, hp, hq]
      · by_cases hp : ps.width > acc.width
        · simp [photoSelStep, hp, hq]
        · have h1 : q.width ≤ ps.width := not_lt.mp hq
          have h2 : ps.width ≤ acc.width := not_lt.mp hp
          have hqa : ¬(acc.width < q.width) := not_lt.mpr (le_trans h1 h2)
          simp [photoSelStep, hp, hq, hqa]

/-- A list without a first maximal element is empty. -/
theorem firstMaxWidth_eq_none {l : List PhotoSize} (h : firstMaxWidth l = none) :
    l = [] := by
  cases l with
  | nil => rfl
  | cons ps rest =>
    exfalso
    have hhead : firstMaxWidth (ps :: rest) =
        match firstMaxWidth rest with
        | none => some ps
        | some q => if q.width > ps.width then some q else some ps := rfl
    rw [hhead] at h
    cases hr : firstMaxWidth rest with
    | none =>
      rw [hr] at h
      exact Option.noConfusion h
    | some q =>
      rw [hr] at h
      have h' : (if q.width > ps.width then some q else some ps) =
          (none : Option PhotoSize) := h
      by_cases hq : q.width > ps.width
      · rw [if_pos hq] at h'; exact Option.noConfusion h'
      · rw [if_neg hq] at h'; exact Option.noConfusion h'

/-- `firstMaxWidth` really returns a member of maximal width. -/
theorem firstMaxWidth_spec (photo_sizes : List PhotoSize) :
    ∀ q, firstMaxWidth photo_sizes = some q →
      q ∈ photo_sizes ∧ ∀ r ∈ photo_sizes, r.width ≤ q.width := by
  induction photo_sizes with
  | nil => intro q h; cases h
  | cons ps rest ih =>
    intro q h
    have hhead : firstMaxWidth (ps :: rest) =
        match firstMaxWidth rest with
        | none => some ps
        | some q => if q.width > ps.width then some q else some ps := rfl
    rw [hhead] at h
    cases hr : firstMaxWidth rest with
    | none =>
      rw [hr] at h
      have h' : ps = q := Option.some.inj h
      subst h'
      have hrest : rest = [] := firstMaxWidth_eq_none hr
      subst hrest
      refine ⟨List.mem_cons_self ps [], ?_⟩
      intro r hrm
      cases hrm with
      | head => exact le_refl _
      | tail _ hm => cases hm
    | some w =>
      rw [hr] at h
      have h' : (if w.width > ps.width then some w else some ps) = some q := h
      by_cases hw : w.width > ps.width
      · rw [if_pos hw] at h'
        have hq : w = q := Option.some.inj h'
        subst hq
        obtain ⟨hmem, hmax⟩ := ih w hr
        refine ⟨List.mem_cons_of_mem ps hmem, ?_⟩
        intro r hrm
        cases hrm with
        | head => exact le_of_lt hw
        | tail _ hm => exact hmax r hm
      · rw [if_neg hw] at h'
        have hq : ps = q := Option.some.inj h'
        subst hq
        obtain ⟨hmem, hmax⟩ := ih w hr
        refine ⟨List.mem_cons_self ps rest, ?_⟩
        intro r hrm
        cases hrm with
        | head => exact le_refl _
        | tail _ hm => exact le_trans (hmax r hm) (not_lt.mp hw)

/-- C1: for every registry of N recipients, every message, every flag pair
and every network behaviour, `broadcast` attempts all N recipients in order,
counts exactly the F failing deliveries as failures, reports
numSuccess = N - F, and the two counters partition N. -/
theorem broadcast_outcome (tgn : TGNotifier) (msg : String) (with_host notify : Bool)
    (hostname : String) (net : SendPayload → HttpOutcome) :
    (broadcast tgn msg with_host notify hostname net).attempted =
        tgn.registered_chats.map Prod.fst ∧
    (broadcast tgn msg with_host notify hostname net).numFailure =
        tgn.registered_chats.countP (fun p =>
          !(post (net (send_msg_payload p.1 (sentText msg with_host hostname)
            notify))).isOk) ∧
    (broadcast tgn msg with_host notify hostname net).numSuccess =
        tgn.registered_chats.length -
          tgn.registered_chats.countP (fun p =>
            !(post (net (send_msg_payload p.1 (sentText msg with_host hostname)
              notify))).isOk) ∧
    (broadcast tgn msg with_host notify hostname net).numSuccess +
        (broadcast tgn msg with_host notify hostname net).numFailure =
        tgn.registered_chats.length := by
  obtain ⟨h1, h2, h3, h4⟩ :=
    broadcastLoop_spec net msg with_host notify hostname tgn tgn.registered_chats
  have h2' : (broadcast tgn msg with_host notify hostname net).numFailure =
      tgn.registered_chats.countP (fun p =>
        !(post (net (send_msg_payload p.1 (sentText msg with_host hostname)
          notify))).isOk) := h2
  have h3' : (broadcast tgn msg with_host notify hostname net).numSuccess +
      (broadcast tgn msg with_host notify hostname net).numFailure =
      tgn.registered_chats.length := h3
  exact ⟨h1, h2, by omega, h3⟩

/-- C2 (code bug): the `sendMessage` payload field `disable_notification`
equals the `notify` argument itself, and `main` passes `notify = not mute`;
hence a muted (silent) request yields `disable_notification = false` and an
unmuted one yields `true` — the inverse of the specified behaviour. -/
theorem send_msg_disable_notification_inverted :
    (∀ (chat_id : Int) (msg : String) (notify : Bool),
      (send_msg_payload chat_id msg notify).disable_notification = notify) ∧
    (send_msg_payload 42 "hello" (main_notify_arg true)).disable_notification = false ∧
    (send_msg_payload 42 "hello" (main_notify_arg false)).disable_notification = true :=
  ⟨fun _ _ _ => rfl, rfl, rfl⟩

/-- C3: the cursor after `get_updates` equals the maximum update id K of a
non-empty batch whenever the prior cursor is at most K, is unchanged on an
empty batch, and never decreases. -/
theorem get_updates_cursor (tgn : TGNotifier) (limit timeout : Nat)
    (allowed_updates : List String) (results : List Update) (K : Int) :
    tgn.last_update_id ≤
        (get_updates tgn limit timeout allowed_updates results).finalState.last_update_id ∧
    (results = [] →
      (get_updates tgn limit timeout allowed_updates results).finalState.last_update_id =
        tgn.last_update_id) ∧
    ((∃ u ∈ results, u.update_id = K) → (∀ u ∈ results, u.update_id ≤ K) →
      tgn.last_update_id ≤ K →
      (get_updates tgn limit timeout allowed_updates results).finalState.last_update_id =
        K) := by
  refine ⟨?_, ?_, ?_⟩
  · exact le_foldl_max results tgn.last_update_id
  · intro h; subst h; rfl
  · rintro ⟨u, hu, huK⟩ hub hle
    apply le_antisymm
    · exact foldl_max_le results K hub tgn.last_update_id hle
    · rw [← huK]
      exact mem_le_foldl_max results tgn.last_update_id u hu

/-- Witness for C3: from cursor 0, a batch containing only update id 5
advances the cursor to exactly 5. -/
theorem get_updates_cursor_witness :
    (get_updates tgn0 100 0 ["message"] [upd5]).finalState.last_update_id = 5 :=
  (get_updates_cursor tgn0 100 0 ["message"] [upd5] 5).2.2
    ⟨upd5, List.mem_cons_self upd5 [], rfl⟩ (by decide) (by decide)

/-- C4: `get_updates` issues exactly two `getUpdates` requests, the first
with offset one past the prior cursor, the second with offset one past the
new cursor (its response unread), and hands the caller exactly the batch of
the first request. -/
theorem get_updates_two_requests (tgn : TGNotifier) (limit timeout : Nat)
    (allowed_updates : List String) (results : List Update) :
    (get_updates tgn limit timeout allowed_updates results).requests =
      [{ offset := tgn.last_update_id + 1, limit := limit, timeout := timeout,
         allowed_updates := ["message"] },
       { offset :=
           (get_updates tgn limit timeout allowed_updates results).finalState.last_update_id
             + 1,
         limit := limit, timeout := timeout, allowed_updates := ["message"] }] ∧
    (get_updates tgn limit timeout allowed_updates results).messages = results :=
  ⟨rfl, rfl⟩

/-- C5: configuration resolution — an explicit path is returned unchanged
with no warning and without consulting the filesystem; otherwise the four
cases of the resolution table hold, with the warning exactly when both
candidate files exist. -/
theorem get_config_file_path_resolution (env : ConfigEnv) :
    (∀ p : String, get_config_file_path (some p) env = (p, false)) ∧
    (∀ xp, env.xdgConfigPath = some xp → env.isFile xp = true →
      env.isFile env.scriptConfigPath = true →
      get_config_file_path none env = (env.scriptConfigPath, true)) ∧
    (env.isFile env.scriptConfigPath = true →
      (∀ xp, env.xdgConfigPath = some xp → env.isFile xp = false) →
      get_config_file_path none env = (env.scriptConfigPath, false)) ∧
    (∀ xp, env.xdgConfigPath = some xp → env.isFile xp = true →
      env.isFile env.scriptConfigPath = false →
      get_config_file_path none env = (xp, false)) ∧
    (∀ xp, env.xdgConfigPath = some xp → env.isFile xp = false →
      env.isFile env.scriptConfigPath = false →
      get_config_file_path none env = (xp, false)) ∧
    (env.xdgConfigPath = none → env.isFile env.scriptConfigPath = false →
      get_config_file_path none env = (env.scriptConfigPath, false)) := by
  refine ⟨fun p => rfl, ?_, ?_, ?_, ?_, ?_⟩
  · intro xp hx hxf hsf
    simp [get_config_file_path, hx, hxf, hsf]
  · intro hsf hxf
    cases hx : env.xdgConfigPath with
    | none => simp [get_config_file_path, hx, hsf]
    | some xp => simp [get_config_file_path, hx, hxf xp hx, hsf]
  · intro xp hx hxf hsf
    simp [get_config_file_path, hx, hxf, hsf]
  · intro xp hx hxf hsf
    simp [get_config_file_path, hx, hxf, hsf]
  · intro hx hsf
    simp [get_config_file_path, hx, hsf]

/-- Witness for C5: with both candidate files present, the script-side path
is chosen and the warning is emitted. -/
theorem get_config_file_path_resolution_witness :
    get_config_file_path none env0 = ("/opt/tgnotipy/config.json", true) :=
  (get_config_file_path_resolution env0).2.1
    "/home/u/.config/tgnotipy/config.json" rfl rfl rfl

/-- C6 counterexample: two variants of equal (maximal) width 2; the loop
keeps the FIRST one ("a"), not the last one ("b") the claim names. -/
theorem download_photo_tie_counterexample :
    download_photo_file_id
        [{ width := 2, height := 1, file_id := "a" },
         { width := 2, height := 1, file_id := "b" }] = some "a" ∧
      ("a" : String) ≠ "b" :=
  ⟨rfl, by decide⟩

/-- C6 (amended): photo retrieval selects the variant with the greatest
width, and among variants of equal maximal width the FIRST one in iteration
order wins (the loop replaces only on strictly greater width). -/
theorem download_photo_first_max (photo_sizes : List PhotoSize)
    (h : ∀ ps ∈ photo_sizes, 0 ≤ ps.width) :
    download_photo_file_id photo_sizes =
      Option.map (fun q => q.file_id) (firstMaxWidth photo_sizes) ∧
    ∀ q, firstMaxWidth photo_sizes = some q →
      q ∈ photo_sizes ∧ ∀ r ∈ photo_sizes, r.width ≤ q.width := by
  constructor
  · unfold download_photo_file_id
    rw [photoLoop_spec]
    cases hr : firstMaxWidth photo_sizes with
    | none => rfl
    | some q =>
      have hq : q ∈ photo_sizes := (firstMaxWidth_spec photo_sizes q hr).1
      have h0 : (0 : Int) ≤ q.width := h q hq
      have hgt : (-1 : Int) < q.width := by omega
      simp [hgt]
  · exact fun q hq => firstMaxWidth_spec photo_sizes q hq

/-- Witness for C6 (amended): on widths 2 then 3 the selection is "b". -/
theorem download_photo_first_max_witness :
    download_photo_file_id
        [{ width := 2, height := 1, file_id := "a" },
         { width := 3, height := 1, file_id := "b" }] =
      Option.map (fun q => q.file_id)
        (firstMaxWidth
          [{ width := 2, height := 1, file_id := "a" },
           { width := 3, height := 1, file_id := "b" }]) :=
  (download_photo_first_max _ (by decide)).1

/-- C7 counterexample: status 201 is in the 2xx class, yet the code raises
(it tests `!= 200`), so "raises iff non-2xx" is false at 201. -/
theorem checked_get_request_2xx_counterexample :
    checked_get_request (HttpOutcome.response 201) =
      Except.error ("Request failed with status code " ++ toString 201) ∧
    is2xx 201 = true :=
  ⟨rfl, rfl⟩

/-- C7 (amended): a request raises exactly when the transport fails or the
status differs from 200 (not merely from the 2xx class); the error carries
the status code, and the "illformed message" hint appears for POST calls
with status 400 only, never on the GET path. -/
theorem request_failed_semantics (s : Nat) :
    (checked_get_request (HttpOutcome.response s) = Except.ok () ↔ s = 200) ∧
    (post (HttpOutcome.response s) = Except.ok () ↔ s = 200) ∧
    checked_get_request HttpOutcome.exn =
      Except.error "Request failed critically (no internet?)" ∧
    post HttpOutcome.exn = Except.error "Request failed critically (no internet?)" ∧
    (s ≠ 200 →
      checked_get_request (HttpOutcome.response s) =
        Except.error ("Request failed with status code " ++ toString s)) ∧
    (s ≠ 200 →
      post (HttpOutcome.response s) =
        Except.error ("Request failed with status code " ++ toString s ++
          (if s = 400 then " (illformed message?)" else ""))) := by
  refine ⟨?_, ?_, rfl, rfl, ?_, ?_⟩
  · by_cases hs : s = 200
    · subst hs; simp [checked_get_request]
    · simp [checked_get_request, hs]
  · by_cases hs : s = 200
    · subst hs; simp [post]
    · simp [post, hs]
  · intro hs; simp [checked_get_request, hs]
  · intro hs; simp [post, hs]

/-- Witness for C7 (amended): a 500 GET response raises with the status
code in the message. -/
theorem request_failed_semantics_witness :
    checked_get_request (HttpOutcome.response 500) =
      Except.error ("Request failed with status code " ++ toString 500) :=
  (request_failed_semantics 500).2.2.2.2.1 (by decide)

/-- C8: extraction followed by merge is an overwrite-union — a key carried
by the batch maps to the display name of the LAST message with that chat id
(later messages win), and any other key keeps its old registry binding. -/
theorem extraction_merge_overwrite (tgn : TGNotifier) (updates : List Update)
    (k : Int) :
    dictLookup (add_recent_chats tgn updates).1.registered_chats k =
      match latestName updates k with
      | some n => some n
      | none => dictLookup tgn.registered_chats k := by
  show dictLookup (dictUpdate tgn.registered_chats (get_recent_chats updates)) k = _
  rw [dictLookup_dictUpdate, dictLastLookup_get_recent_chats]

/-- C9: merging the same entries twice yields the same mapping as merging
them once — the registry, as a mapping from id to name, is unchanged by a
repeated `dict.update` with the same argument. -/
theorem merge_idempotent (d new : List (Int × String)) (k : Int) :
    dictLookup (dictUpdate (dictUpdate d new) new) k =
      dictLookup (dictUpdate d new) k := by
  simp only [dictLookup_dictUpdate]
  cases dictLastLookup new k <;> simp

/-- C10: `broadcast` never mutates the notifier — the registered-chats
mapping, the credential and the update cursor all come out unchanged. -/
theorem broadcast_preserves_state (tgn : TGNotifier) (msg : String)
    (with_host notify : Bool) (hostname : String) (net : SendPayload → HttpOutcome) :
    (broadcast tgn msg with_host notify hostname net).finalState.registered_chats =
        tgn.registered_chats ∧
    (broadcast tgn msg with_host notify hostname net).finalState.api_key =
        tgn.api_key ∧
    (broadcast tgn msg with_host notify hostname net).finalState.last_update_id =
        tgn.last_update_id := by
  have h : (broadcast tgn msg with_host notify hostname net).finalState = tgn :=
    (broadcastLoop_spec net msg with_host notify hostname tgn tgn.registered_chats).2.2.2
  exact ⟨by rw [h], by rw [h], by rw [h]⟩

end TGNoti
